import Mathlib

/-!
Verification development for the SOFA operation synthesizer (`operation.ts`,
provided as `src/unnamed/part_000`) and subscription session manager
(`src/src/subscriptions.ts`).

The TypeScript sources are shallowly embedded: the module-level mutable
variables `operationVariables` and `visitedTypes` become an explicit
`SynthState` threaded through the recursion, the ordinary recursion of
`resolveSelectionSet`/`resolveField` (which need not terminate on cyclic
schemas with wrapped type references) is driven by an explicit fuel
parameter where `none` means the recursion did not complete within the
given fuel, and the JavaScript record used for variable values becomes an
association list with JavaScript key-update semantics.
-/

set_option autoImplicit false

namespace Sofa

/-! ### The `change-case` camel function

`operation.ts` names operations and variables via `changeCase.camel`.
We model `camel` for identifier-like inputs (letters and underscores,
no consecutive capitals): words are split at underscores and at
lower-to-upper boundaries, the first word is lowercased, and each later
word is capitalized. -/

/-- Splits a character list into words at underscores and before uppercase
letters. The accumulator holds the current word reversed. -/
def splitWordsAux : List Char → List Char → List (List Char)
  | [], acc => if acc.isEmpty then [] else [acc.reverse]
  | c :: cs, acc =>
    if c = '_' then
      if acc.isEmpty then splitWordsAux cs [] else acc.reverse :: splitWordsAux cs []
    else if c.isUpper then
      if acc.isEmpty then splitWordsAux cs [c] else acc.reverse :: splitWordsAux cs [c]
    else
      splitWordsAux cs (c :: acc)

/-- Lowercases a whole word. -/
def lowerWord (w : List Char) : List Char := w.map Char.toLower

/-- Capitalizes the first character of a word and lowercases the rest. -/
def capWord : List Char → List Char
  | [] => []
  | c :: cs => Char.toUpper c :: cs.map Char.toLower

/-- Model of `changeCase.camel`. -/
def camel (s : String) : String :=
  match splitWordsAux s.toList [] with
  | [] => ""
  | w :: ws => String.mk (lowerWord w ++ (ws.map capWord).flatten)

/-- Model of JavaScript `array.join('_')`. -/
def joinUnderscore : List String → String
  | [] => ""
  | [x] => x
  | x :: y :: xs => x ++ "_" ++ joinUnderscore (y :: xs)

/-! ### GraphQL schema model

Schema-side types (`GraphQLObjectType`, wrappers, ...) as used by
`operation.ts`. Named types are referenced by name and resolved through
the schema's type list, mirroring `getNamedType` / `schema` lookups. -/

/-- A (possibly wrapped) reference to a schema type, as in `GraphQLField.type`. -/
inductive TypeRef where
  | named (name : String)
  | list (ofType : TypeRef)
  | nonNull (ofType : TypeRef)
  deriving Repr, DecidableEq

/-- Model of JavaScript `String(type)` on a GraphQL type: `[T]` for lists and
`T!` for non-null wrappers. -/
def typeToString : TypeRef → String
  | .named n => n
  | .list t => "[" ++ typeToString t ++ "]"
  | .nonNull t => typeToString t ++ "!"

/-- Model of `getNamedType`: strips list/non-null wrappers. -/
def getNamedTypeName : TypeRef → String
  | .named n => n
  | .list t => getNamedTypeName t
  | .nonNull t => getNamedTypeName t

/-- A field argument (`GraphQLArgument`): name and input type. -/
structure ArgDef where
  name : String
  type : TypeRef
  deriving Repr, DecidableEq

/-- A field (`GraphQLField`): name, declared arguments, result type. -/
structure FieldDef where
  name : String
  args : List ArgDef
  type : TypeRef
  deriving Repr, DecidableEq

/-- A named schema type: scalar, object (with its own fields, in
declaration order as returned by `getFields()`), or union (member type
names, as returned by `getTypes()`). -/
inductive TypeDef where
  | scalar (name : String)
  | object (name : String) (fields : List FieldDef)
  | union (name : String) (members : List String)
  deriving Repr, DecidableEq

/-- The name of a named schema type. -/
def TypeDef.tdName : TypeDef → String
  | .scalar n => n
  | .object n _ => n
  | .union n _ => n

/-- Operation kinds (`OperationTypeNode`). -/
inductive OperationKind where
  | query
  | mutation
  | subscription
  deriving Repr, DecidableEq

/-- The string form of an operation kind, as interpolated by
`buildOperationName`'s caller. -/
def OperationKind.str : OperationKind → String
  | .query => "query"
  | .mutation => "mutation"
  | .subscription => "subscription"

/-- A `GraphQLSchema`: the named types plus the root operation type names. -/
structure Schema where
  types : List TypeDef
  queryType : Option String := none
  mutationType : Option String := none
  subscriptionType : Option String := none
  deriving Repr, DecidableEq

/-- Resolves a type name in the schema. -/
def lookupType (schema : Schema) (n : String) : Option TypeDef :=
  schema.types.find? (fun t => t.tdName = n)

/-- Model of `isScalarType` applied to the resolved named type. -/
def isScalar (schema : Schema) (n : String) : Bool :=
  match lookupType schema n with
  | some (.scalar _) => true
  | _ => false

/-! ### GraphQL AST model (the synthesized document) -/

/-- An AST type node (`TypeNode`), as produced by `resolveVariableType`. -/
inductive TypeNode where
  | namedT (name : String)
  | listT (ofType : TypeNode)
  | nonNullT (ofType : TypeNode)
  deriving Repr, DecidableEq

/-- A `VariableDefinitionNode`: the variable's name and its AST type. -/
structure VariableDefinitionNode where
  name : String
  type : TypeNode
  deriving Repr, DecidableEq

/-- An `ArgumentNode`: the argument name and the name of the variable its
value references. -/
structure ArgumentNode where
  name : String
  value : String
  deriving Repr, DecidableEq

/-- A selection (`SelectionNode`): a field selection (with optional nested
selection set) or an inline fragment for a union member. -/
inductive Selection where
  | field (name : String) (args : List ArgumentNode) (selectionSet : Option (List Selection))
  | frag (typeCondition : String) (selectionSet : List Selection)

/-- An `OperationDefinitionNode`. -/
structure OperationDefinition where
  operation : OperationKind
  name : String
  variableDefinitions : List VariableDefinitionNode
  selectionSet : List Selection

/-- A `DocumentNode`; `buildDocumentNode` always produces exactly one
operation definition. -/
structure Document where
  definitions : List OperationDefinition

/-! ### Synthesizer state

`operation.ts` keeps two module-level mutables: `operationVariables`
(an array, pushed via `addOperationVariable` and reset by
`resetOperationVariables`) and `visitedTypes` (a string-keyed record of
booleans; reading an absent key yields a falsy value). -/

/-- The synthesizer's mutable module state, threaded explicitly. -/
structure SynthState where
  operationVariables : List VariableDefinitionNode
  visitedTypes : String → Bool

/-- Model of `addOperationVariable`: pushes at the end. -/
def addOperationVariable (st : SynthState) (v : VariableDefinitionNode) : SynthState :=
  { st with operationVariables := st.operationVariables ++ [v] }

/-- Model of a JavaScript record assignment `visitedTypes[k] = b`. -/
def setVisited (st : SynthState) (k : String) (b : Bool) : SynthState :=
  { st with visitedTypes := fun x => if x = k then b else st.visitedTypes x }

/-- Model of `resolveVariableType`: converts an input type to an AST type
node, preserving list/non-null structure. -/
def resolveVariableType : TypeRef → TypeNode
  | .named n => .namedT n
  | .list t => .listT (resolveVariableType t)
  | .nonNull t => .nonNullT (resolveVariableType t)

/-- Model of `resolveVariable(arg, name?)`: the variable is named
`name || arg.name` (a JavaScript falsy check, so an empty string also
falls back to the argument's bare name). -/
def resolveVariable (arg : ArgDef) (name : Option String) : VariableDefinitionNode :=
  { name := match name with
      | some n => if n = "" then arg.name else n
      | none => arg.name,
    type := resolveVariableType arg.type }

/-- Model of `getArgumentName(name, path)`:
`changeCase.camel([...path, name].join('_'))`. -/
def getArgumentName (name : String) (path : List String) : String :=
  camel (joinUnderscore (path ++ [name]))

/-- Model of the argument-processing loop at the top of `resolveField`
(lines 316-339): for each declared argument, when this is not the first
(root) call, a variable definition named by `getArgumentName` is pushed;
in every case an `ArgumentNode` referencing `getArgumentName(arg.name,
path)` is produced. -/
def processArgs : List ArgDef → Bool → List String → SynthState →
    List ArgumentNode × SynthState
  | [], _, _, st => ([], st)
  | a :: rest, firstCall, path, st =>
    let st1 :=
      if firstCall then st
      else addOperationVariable st (resolveVariable a (some (getArgumentName a.name path)))
    let node : ArgumentNode := { name := a.name, value := getArgumentName a.name path }
    let p := processArgs rest firstCall path st1
    (node :: p.1, p.2)

/-- Model of `path[path.length - 1]` interpolated into the
`"Parent.field"` ignore check: on an empty path JavaScript interpolates
the string `"undefined"`. -/
def lastPathStep (path : List String) : String :=
  match path.getLast? with
  | some l => l
  | none => "undefined"

mutual

/-- Model of `resolveSelectionSet` (`part_000` lines 142-248). The fuel
parameter bounds recursion depth; `none` means the recursion did not
complete within the fuel (the source function recurses without bound in
that case). The inner `Option` is the `undefined` the source returns for
types that are neither unions nor objects. -/
def resolveSelectionSet (fuel : Nat) (schema : Schema) (parentName tname : String)
    (models ignore : List String) (firstCall : Bool) (path : List String)
    (st : SynthState) : Option (Option (List Selection) × SynthState) :=
  match fuel with
  | 0 => none
  | n + 1 =>
    match lookupType schema tname with
    | some (TypeDef.union _ members) =>
      match resolveUnion n schema members models ignore path st with
      | none => none
      | some (sels, st1) => some (some sels, st1)
    | some (TypeDef.object oname ofields) =>
      let isIgnored := ignore.contains oname
        || ignore.contains (parentName ++ "." ++ lastPathStep path)
      let isModel := models.contains oname
      if !firstCall && isModel && !isIgnored then
        some (some [Selection.field "id" [] none], st)
      else
        let filtered := ofields.filter (fun f => !(st.visitedTypes (typeToString f.type)))
        let st1 := setVisited st oname true
        match resolveFields n schema oname filtered models ignore path st1 with
        | none => none
        | some (sels, st2) => some (some sels, setVisited st2 oname false)
    | _ => some (none, st)

/-- Model of the union branch's member loop: one inline fragment per member
type, each member's own fields resolved like object fields. -/
def resolveUnion (fuel : Nat) (schema : Schema) (members : List String)
    (models ignore : List String) (path : List String) (st : SynthState) :
    Option (List Selection × SynthState) :=
  match fuel with
  | 0 => none
  | n + 1 =>
    match members with
    | [] => some ([], st)
    | m :: ms =>
      let mfields := match lookupType schema m with
        | some (TypeDef.object _ fs) => fs
        | _ => []
      match resolveFields n schema m mfields models ignore path st with
      | none => none
      | some (sels, st1) =>
        match resolveUnion n schema ms models ignore path st1 with
        | none => none
        | some (rest, st2) => some (Selection.frag m sels :: rest, st2)

/-- Model of the per-field loop
`Object.keys(filtered).map(fieldName => resolveField({... path: [...path, fieldName] ...}))`:
each child field is resolved with the child's name appended to the
path, never as a first call, threading the mutable state left to right. -/
def resolveFields (fuel : Nat) (schema : Schema) (tname : String) (fs : List FieldDef)
    (models ignore : List String) (path : List String) (st : SynthState) :
    Option (List Selection × SynthState) :=
  match fuel with
  | 0 => none
  | n + 1 =>
    match fs with
    | [] => some ([], st)
    | f :: rest =>
      match resolveField n schema tname f models ignore false (path ++ [f.name]) st with
      | none => none
      | some (sel, st1) =>
        match resolveFields n schema tname rest models ignore path st1 with
        | none => none
        | some (sels, st2) => some (sel :: sels, st2)

/-- Model of `resolveField` (`part_000` lines 298-368): arguments are
processed first (pushing variables when not the root call), then scalar
result types yield a leaf selection while other result types recurse
through `resolveSelectionSet` with the field's own name appended to the
path. -/
def resolveField (fuel : Nat) (schema : Schema) (typeName : String) (field : FieldDef)
    (models ignore : List String) (firstCall : Bool) (path : List String)
    (st : SynthState) : Option (Selection × SynthState) :=
  match fuel with
  | 0 => none
  | n + 1 =>
    let namedT := getNamedTypeName field.type
    let p := processArgs field.args firstCall path st
    if isScalar schema namedT then
      some (Selection.field field.name p.1 none, p.2)
    else
      match resolveSelectionSet n schema typeName namedT models ignore firstCall
          (path ++ [field.name]) p.2 with
      | none => none
      | some (sub, st2) => some (Selection.field field.name p.1 sub, st2)

end

/-- Model of `buildOperationName`. -/
def buildOperationName (name : String) : String := camel name

/-- Model of `buildDocumentNode` (`part_000` lines 82-138): resolves the
root operation type and the requested field, pushes one bare-named
variable per root-field argument, and wraps the root `resolveField` call
(with `firstCall: true` and an empty path) in a single operation
definition. `none` covers both a missing root type or field (a crash in
the source) and fuel exhaustion. -/
def buildDocumentNode (fuel : Nat) (schema : Schema) (kind : OperationKind)
    (fieldName : String) (models ignore : List String) (st : SynthState) :
    Option (Document × SynthState) :=
  let rootName? : Option String :=
    match kind with
    | .query => schema.queryType
    | .mutation => schema.mutationType
    | .subscription => schema.subscriptionType
  match rootName? with
  | none => none
  | some rootName =>
    match lookupType schema rootName with
    | some (TypeDef.object _ rootFields) =>
      match rootFields.find? (fun f => f.name = fieldName) with
      | none => none
      | some field =>
        let operationName := buildOperationName (fieldName ++ "_" ++ kind.str)
        let st1 := field.args.foldl (fun s a => addOperationVariable s (resolveVariable a none)) st
        match resolveField fuel schema rootName field models ignore true [] st1 with
        | none => none
        | some (sel, st2) =>
          some ({ definitions := [{ operation := kind, name := operationName,
                                    variableDefinitions := [],
                                    selectionSet := [sel] }] }, st2)
    | _ => none

/-- Model of `buildOperation` (`part_000` lines 49-80): resets the
variable accumulator, builds the document, attaches the accumulated
variables to the first definition, and resets the accumulator again.
The `visitedTypes` record is never reset. -/
def buildOperation (fuel : Nat) (schema : Schema) (kind : OperationKind)
    (fieldName : String) (models ignore : List String) (st : SynthState) :
    Option (Document × SynthState) :=
  let st0 : SynthState := { st with operationVariables := [] }
  match buildDocumentNode fuel schema kind fieldName models ignore st0 with
  | none => none
  | some (doc, st1) =>
    let doc1 :=
      match doc.definitions with
      | [] => doc
      | op :: rest =>
        { doc with definitions := { op with variableDefinitions := st1.operationVariables } :: rest }
    some (doc1, { st1 with operationVariables := [] })

/-! ### Subscription session manager (`src/src/subscriptions.ts`)

The `SubscriptionManager`'s two `Map`s become association lists with
JavaScript `Map` semantics (`set` overwrites in place or appends,
`delete` removes, `get`/`has` find the unique entry). `uuid()` is
modelled as a counter drawn from the manager state, which captures the
global uniqueness the source relies on. The externals are parameters:
`subscribe` (graphql execution) is an oracle from the computed variable
values to either a live stream (modelled by the list of values it will
produce) or an immediate execution result, and `parseVariable`
(`src/parse`, not among the provided sources) is an oracle from a
variable definition and the supplied value to the coerced value, where
`none` is JavaScript `undefined`. -/

/-- Finds the value stored under a key (JavaScript `Map.get`). -/
def alistGet {α : Type} (l : List (Nat × α)) (k : Nat) : Option α :=
  (l.find? (fun p => p.1 = k)).map (fun p => p.2)

/-- Stores a value under a key (JavaScript `Map.set`): an existing entry
is overwritten in place, otherwise the pair is appended. -/
def alistSet {α : Type} (l : List (Nat × α)) (k : Nat) (v : α) : List (Nat × α) :=
  if l.any (fun p => p.1 = k) then
    l.map (fun p => if p.1 = k then (k, v) else p)
  else
    l ++ [(k, v)]

/-- Removes a key (JavaScript `Map.delete`). -/
def alistRemove {α : Type} (l : List (Nat × α)) (k : Nat) : List (Nat × α) :=
  l.filter (fun p => ¬ p.1 = k)

/-- String-keyed `Map.get`, for the pre-built operations map. -/
def smapGet {α : Type} (l : List (String × α)) (k : String) : Option α :=
  (l.find? (fun p => p.1 = k)).map (fun p => p.2)

/-- A pre-built operation (`BuiltOperation`). -/
structure BuiltOperation where
  operationName : String
  document : Document
  varDefs : List VariableDefinitionNode

/-- A stored session (`StoredClient`): subscribed field name, callback
target url, and the live stream handle (modelled by the values the
stream will still produce). -/
structure StoredClient where
  name : String
  url : String
  iterator : List String
  deriving Repr, DecidableEq

/-- The manager's state: the two `Map`s plus the identifier source
modelling `uuid()`. -/
structure ManagerState where
  operations : List (String × BuiltOperation)
  clients : List (Nat × StoredClient)
  nextId : Nat

/-- The named errors thrown by the manager. -/
inductive SofaError where
  | unknownSubscriptionField (name : String)
  | unknownSessionId (id : Nat)
  deriving Repr, DecidableEq

/-- The value returned by `start` (and hence `update`): either `{ id }`
for a registered live stream or the immediate execution result. -/
inductive StartResponse where
  | id (id : Nat)
  | result (r : String)
  deriving Repr, DecidableEq

/-- The outcome of `subscribe(...)`: a live asynchronous stream or an
immediate `ExecutionResult`. -/
inductive SubscribeOutcome where
  | stream (values : List String)
  | immediate (result : String)
  deriving Repr, DecidableEq

namespace SubscriptionManager

/-- Model of the JavaScript record update `{ ...values, [k]: v }`: an
existing key keeps its position and is overwritten, a new key is
appended. -/
def recordSet (r : List (String × String)) (k v : String) : List (String × String) :=
  if r.any (fun p => p.1 = k) then
    r.map (fun p => if p.1 = k then (k, v) else p)
  else
    r ++ [(k, v)]

/-- Model of the variable-binding reduce in `SubscriptionManager.execute`
(`subscriptions.ts` lines 174-190): for each stored variable definition,
the supplied value is coerced by `parseVariable`; an `undefined` result
is skipped, and a defined result is stored under `[name]` — the
subscription field name from the enclosing scope, not the variable's own
name. -/
def executionVariableValues (variableNodes : List VariableDefinitionNode) (name : String)
    (supplied : String → Option String)
    (parseVar : VariableDefinitionNode → Option String → Option String) :
    List (String × String) :=
  variableNodes.foldl
    (fun values variableNode =>
      match parseVar variableNode (supplied variableNode.name) with
      | none => values
      | some value => recordSet values name value)
    []

/-- Model of `SubscriptionManager.execute` (lines 155-233): computes the
variable values, calls `subscribe` (the oracle), and either registers the
stream under the fresh identifier and returns nothing, or returns the
immediate execution result. The detached pump launched on registration
is external to this state transition. -/
def execute (subscribeFn : List (String × String) → SubscribeOutcome)
    (parseVar : VariableDefinitionNode → Option String → Option String)
    (s : ManagerState) (id : Nat) (name url : String)
    (supplied : String → Option String) : Option String × ManagerState :=
  let variableNodes := match smapGet s.operations name with
    | some op => op.varDefs
    | none => []
  let variableValues := executionVariableValues variableNodes name supplied parseVar
  match subscribeFn variableValues with
  | .stream values =>
    (none, { s with clients := alistSet s.clients id { name := name, url := url, iterator := values } })
  | .immediate result => (some result, s)

/-- Model of `SubscriptionManager.start` (lines 69-104): draws a fresh
identifier, fails with `UnknownSubscriptionField` when no operation was
pre-built for the field, otherwise executes and returns either the
immediate result or `{ id }`. -/
def start (subscribeFn : List (String × String) → SubscribeOutcome)
    (parseVar : VariableDefinitionNode → Option String → Option String)
    (s : ManagerState) (subscription : String) (supplied : String → Option String)
    (url : String) : Except SofaError StartResponse × ManagerState :=
  let id := s.nextId
  let s1 := { s with nextId := s.nextId + 1 }
  if (smapGet s1.operations subscription).isSome then
    match execute subscribeFn parseVar s1 id subscription url supplied with
    | (some result, s2) => (.ok (.result result), s2)
    | (none, s2) => (.ok (.id id), s2)
  else
    (.error (.unknownSubscriptionField subscription), s1)

/-- Model of `SubscriptionManager.stop` (lines 106-120): fails with
`UnknownSessionId` when the identifier is not in the store, otherwise
releases the stream (an external effect) and removes the entry. -/
def stop (s : ManagerState) (id : Nat) : Except SofaError Nat × ManagerState :=
  match alistGet s.clients id with
  | none => (.error (.unknownSessionId id), s)
  | some _execution => (.ok id, { s with clients := alistRemove s.clients id })

/-- Model of `SubscriptionManager.update` (lines 122-153): fails with
`UnknownSessionId` when the identifier is unknown, otherwise reads the
stored field name and callback target, stops the old session, and starts
a new one with the new variables. -/
def update (subscribeFn : List (String × String) → SubscribeOutcome)
    (parseVar : VariableDefinitionNode → Option String → Option String)
    (s : ManagerState) (id : Nat) (supplied : String → Option String) :
    Except SofaError StartResponse × ManagerState :=
  match alistGet s.clients id with
  | none => (.error (.unknownSessionId id), s)
  | some client =>
    let s1 := (stop s id).2
    start subscribeFn parseVar s1 client.name supplied client.url

end SubscriptionManager

/-! ### Concrete schemas used in the scenarios -/

/-- The synthesizer's state at process start: no accumulated variables,
no visited types. -/
def initSynthState : SynthState := ⟨[], fun _ => false⟩

/-- Relation between visited-type records: every key is either cleared or
unchanged. A completed traversal only ever leaves keys `false` or
untouched. -/
def clearsTo (v w : String → Bool) : Prop := ∀ k, v k = false ∨ v k = w k

/-- The C6 scenario schema: `subscription { messageAdded(roomId: ID!): Message }`,
`Message` with fields `{id, text, author: User}`. -/
def schemaC6 : Schema :=
  { types := [
      TypeDef.scalar "ID",
      TypeDef.scalar "String",
      TypeDef.object "User" [⟨"id", [], TypeRef.named "ID"⟩,
                             ⟨"name", [], TypeRef.named "String"⟩],
      TypeDef.object "Message" [⟨"id", [], TypeRef.named "ID"⟩,
                                ⟨"text", [], TypeRef.named "String"⟩,
                                ⟨"author", [], TypeRef.named "User"⟩],
      TypeDef.object "Subscription"
        [⟨"messageAdded", [⟨"roomId", TypeRef.nonNull (TypeRef.named "ID")⟩],
          TypeRef.named "Message"⟩]],
    subscriptionType := some "Subscription" }

/-- A cyclic schema whose cross-references are non-null-wrapped:
`A { b: B! }`, `B { a: A! }`, reached from the subscription field `r`. -/
def schemaCyc : Schema :=
  { types := [
      TypeDef.object "A" [⟨"b", [], TypeRef.nonNull (TypeRef.named "B")⟩],
      TypeDef.object "B" [⟨"a", [], TypeRef.nonNull (TypeRef.named "A")⟩],
      TypeDef.object "Subscription" [⟨"r", [], TypeRef.named "A"⟩]],
    subscriptionType := some "Subscription" }

/-- A cyclic schema with plain (unwrapped) cross-references:
`A { s: String, b: B }`, `B { a: A, t: String }`. -/
def schemaCycPlain : Schema :=
  { types := [
      TypeDef.scalar "String",
      TypeDef.object "A" [⟨"s", [], TypeRef.named "String"⟩,
                          ⟨"b", [], TypeRef.named "B"⟩],
      TypeDef.object "B" [⟨"a", [], TypeRef.named "A"⟩,
                          ⟨"t", [], TypeRef.named "String"⟩],
      TypeDef.object "Subscription" [⟨"r", [], TypeRef.named "A"⟩]],
    subscriptionType := some "Subscription" }

/-- A schema producing colliding and path-doubled variable names:
`R { userName(id: String): String, user(nameId: String): String, inner: U }`,
`U { deep(x: String): String }`. -/
def schemaDup : Schema :=
  { types := [
      TypeDef.scalar "String",
      TypeDef.object "U" [⟨"deep", [⟨"x", TypeRef.named "String"⟩], TypeRef.named "String"⟩],
      TypeDef.object "R" [⟨"userName", [⟨"id", TypeRef.named "String"⟩], TypeRef.named "String"⟩,
                          ⟨"user", [⟨"nameId", TypeRef.named "String"⟩], TypeRef.named "String"⟩,
                          ⟨"inner", [], TypeRef.named "U"⟩],
      TypeDef.object "Subscription" [⟨"r", [], TypeRef.named "R"⟩]],
    subscriptionType := some "Subscription" }

/-- A schema like the C6 one but whose root-field argument name
`room_id` is not already camel-cased. -/
def schemaRoomUnderscore : Schema :=
  { types := [
      TypeDef.scalar "ID",
      TypeDef.scalar "String",
      TypeDef.object "Message" [⟨"id", [], TypeRef.named "ID"⟩,
                                ⟨"text", [], TypeRef.named "String"⟩],
      TypeDef.object "Subscription"
        [⟨"messageAdded", [⟨"room_id", TypeRef.nonNull (TypeRef.named "ID")⟩],
          TypeRef.named "Message"⟩]],
    subscriptionType := some "Subscription" }

/-- A schema whose root field's own type is in the Model Set:
`subscription { m: Msg }` with `Msg { id: ID, text: String }`. -/
def schemaRootModel : Schema :=
  { types := [
      TypeDef.scalar "ID",
      TypeDef.scalar "String",
      TypeDef.object "Msg" [⟨"id", [], TypeRef.named "ID"⟩,
                            ⟨"text", [], TypeRef.named "String"⟩],
      TypeDef.object "Subscription" [⟨"m", [], TypeRef.named "Msg"⟩]],
    subscriptionType := some "Subscription" }

/-! ## Association list lemmas (JavaScript `Map` semantics) -/

section AListLemmas

variable {α : Type}

theorem alistGet_eq_none_iff (l : List (Nat × α)) (k : Nat) :
    alistGet l k = none ↔ ∀ p ∈ l, p.1 ≠ k := by
  simp [alistGet, List.find?_eq_none]

theorem alistSet_of_get_none (l : List (Nat × α)) (k : Nat) (v : α)
    (h : alistGet l k = none) : alistSet l k v = l ++ [(k, v)] := by
  rw [alistGet_eq_none_iff] at h
  unfold alistSet
  rw [if_neg]
  simp only [List.any_eq_true, decide_eq_true_eq, not_exists, not_and]
  intro p hp
  exact h p hp

theorem alistGet_append_single (l : List (Nat × α)) (k : Nat) (v : α) :
    alistGet (l ++ [(k, v)]) k = (alistGet l k).orElse (fun _ => some v) := by
  cases hfind : l.find? (fun p => decide (p.1 = k)) with
  | none => simp [alistGet, List.find?_append, hfind, Option.orElse, List.find?]
  | some q => simp [alistGet, List.find?_append, hfind, Option.orElse]

theorem alistGet_set_self (l : List (Nat × α)) (k : Nat) (v : α) :
    alistGet (alistSet l k v) k = some v := by
  unfold alistSet
  by_cases hany : l.any (fun p => decide (p.1 = k)) = true
  · rw [if_pos hany]
    simp only [List.any_eq_true, decide_eq_true_eq] at hany
    obtain ⟨q, hq, hqk⟩ := hany
    simp only [alistGet, List.find?_map]
    have hcomp : ((fun p : Nat × α => decide (p.1 = k)) ∘
        (fun p : Nat × α => if p.1 = k then (k, v) else p)) =
        fun p : Nat × α => decide (p.1 = k) := by
      funext p
      by_cases hp : p.1 = k <;> simp [hp]
    rw [hcomp]
    cases hfind : l.find? (fun p : Nat × α => decide (p.1 = k)) with
    | none =>
      rw [List.find?_eq_none] at hfind
      exact absurd (by simpa using hqk) (by simpa using hfind q hq)
    | some r =>
      have hr : r.1 = k := by simpa using List.find?_some hfind
      simp [hr]
  · rw [if_neg hany]
    have hnone : l.find? (fun p : Nat × α => decide (p.1 = k)) = none := by
      rw [List.find?_eq_none]
      intro p hp
      simp only [List.any_eq_true] at hany
      exact fun hc => hany ⟨p, hp, hc⟩
    simp [alistGet, List.find?_append, hnone, List.find?]

theorem alistGet_set_ne (l : List (Nat × α)) (k k' : Nat) (v : α) (h : k' ≠ k) :
    alistGet (alistSet l k v) k' = alistGet l k' := by
  unfold alistSet
  by_cases hany : l.any (fun p => decide (p.1 = k)) = true
  · rw [if_pos hany]
    simp only [alistGet, List.find?_map]
    have hcomp : ((fun p : Nat × α => decide (p.1 = k')) ∘
        (fun p : Nat × α => if p.1 = k then (k, v) else p)) =
        fun p : Nat × α => decide (p.1 = k') := by
      funext p
      by_cases hp : p.1 = k <;> simp [hp, h, Ne.symm h]
    rw [hcomp]
    cases hfind : l.find? (fun p : Nat × α => decide (p.1 = k')) with
    | none => simp
    | some r =>
      have hr : r.1 = k' := by simpa using List.find?_some hfind
      have : r.1 ≠ k := hr ▸ h
      simp [this]
  · rw [if_neg hany]
    have hsingle : List.find? (fun p : Nat × α => decide (p.1 = k')) [(k, v)] = none := by
      simp [List.find?, Ne.symm h]
    simp [alistGet, List.find?_append, hsingle]

theorem alistGet_remove_self (l : List (Nat × α)) (k : Nat) :
    alistGet (alistRemove l k) k = none := by
  simp only [alistGet, alistRemove, Option.map_eq_none', List.find?_filter]
  rw [List.find?_eq_none]
  intro p _
  simp

theorem alistGet_remove_ne (l : List (Nat × α)) (k k' : Nat) (h : k' ≠ k) :
    alistGet (alistRemove l k) k' = alistGet l k' := by
  simp only [alistGet, alistRemove, List.find?_filter]
  congr 2
  funext p
  by_cases hp : p.1 = k'
  · simp [hp, h]
  · simp [hp]

theorem alistRemove_of_get_none (l : List (Nat × α)) (k : Nat)
    (h : alistGet l k = none) : alistRemove l k = l := by
  rw [alistGet_eq_none_iff] at h
  unfold alistRemove
  rw [List.filter_eq_self]
  intro p hp
  simpa using h p hp

theorem alistRemove_set_of_get_none (l : List (Nat × α)) (k : Nat) (v : α)
    (h : alistGet l k = none) : alistRemove (alistSet l k v) k = l := by
  rw [alistSet_of_get_none l k v h]
  unfold alistRemove
  rw [List.filter_append]
  have h1 : List.filter (fun p : Nat × α => decide (¬ p.1 = k)) l = l := by
    rw [List.filter_eq_self]
    intro p hp
    rw [alistGet_eq_none_iff] at h
    simpa using h p hp
  have h2 : List.filter (fun p : Nat × α => decide (¬ p.1 = k)) [(k, v)] = [] := by
    simp [List.filter]
  rw [h1, h2, List.append_nil]

theorem alistSet_length_of_get_none (l : List (Nat × α)) (k : Nat) (v : α)
    (h : alistGet l k = none) : (alistSet l k v).length = l.length + 1 := by
  rw [alistSet_of_get_none l k v h]
  simp

end AListLemmas

/-! ## Claim theorems: subscription session manager -/

/-- C6: for the schema `subscription { messageAdded(roomId: ID!): Message }`
with `Message {id, text, author: User}` and `User` in the Model Set,
synthesis yields exactly `messageAdded(roomId: $roomId) { id text author { id } }`
with exactly one variable definition `roomId: ID!`. -/
theorem c6_message_added_scenario :
    (buildOperation 20 schemaC6 OperationKind.subscription "messageAdded" ["User"] []
        initSynthState).map (fun p => p.1)
      = some { definitions := [{
          operation := OperationKind.subscription,
          name := "messageAddedSubscription",
          variableDefinitions := [⟨"roomId", TypeNode.nonNullT (TypeNode.namedT "ID")⟩],
          selectionSet := [Selection.field "messageAdded" [⟨"roomId", "roomId"⟩]
            (some [Selection.field "id" [] none,
                   Selection.field "text" [] none,
                   Selection.field "author" [] (some [Selection.field "id" [] none])])] }] } :=
  rfl

/-- C1 (the code, evaluated at the failing input): the variable-binding
reduce of `SubscriptionManager.execute` stores a present coerced value
under the subscription field name (`messageAdded`), not under the
variable's own name (`roomId`), so the executed variable values map for
variable `roomId: ID!` with supplied value `"42"` is
`{messageAdded: "42"}` and holds nothing under `roomId`; a variable whose
supplied value is absent is indeed skipped. -/
theorem c1_variable_values_keyed_by_field_name :
    SubscriptionManager.executionVariableValues
        [⟨"roomId", TypeNode.nonNullT (TypeNode.namedT "ID")⟩] "messageAdded"
        (fun k => if k = "roomId" then some "42" else none) (fun _ v => v)
      = [("messageAdded", "42")]
    ∧ (SubscriptionManager.executionVariableValues
        [⟨"roomId", TypeNode.nonNullT (TypeNode.namedT "ID")⟩] "messageAdded"
        (fun k => if k = "roomId" then some "42" else none) (fun _ v => v)).find?
          (fun p => p.1 = "roomId") = none
    ∧ SubscriptionManager.executionVariableValues
        [⟨"roomId", TypeNode.nonNullT (TypeNode.namedT "ID")⟩] "messageAdded"
        (fun _ => none) (fun _ v => v)
      = [] :=
  ⟨rfl, rfl, rfl⟩

/-- C9: `start()` with a subscription field name for which no operation
was pre-built fails with `UnknownSubscriptionField` naming the field, and
the session store is unchanged. -/
theorem c9_start_unknown_field
    (subscribeFn : List (String × String) → SubscribeOutcome)
    (parseVar : VariableDefinitionNode → Option String → Option String)
    (s : ManagerState) (name url : String) (supplied : String → Option String)
    (h : smapGet s.operations name = none) :
    (SubscriptionManager.start subscribeFn parseVar s name supplied url).1
        = Except.error (SofaError.unknownSubscriptionField name)
    ∧ (SubscriptionManager.start subscribeFn parseVar s name supplied url).2.clients
        = s.clients := by
  unfold SubscriptionManager.start
  simp [h]

/-- C9 witness. -/
theorem c9_start_unknown_field_witness :
    (SubscriptionManager.start (fun _ => SubscribeOutcome.stream []) (fun _ v => v)
        ⟨[], [], 0⟩ "missing" (fun _ => none) "http://cb").1
      = Except.error (SofaError.unknownSubscriptionField "missing") :=
  (c9_start_unknown_field (fun _ => SubscribeOutcome.stream []) (fun _ v => v)
    ⟨[], [], 0⟩ "missing" "http://cb" (fun _ => none) rfl).1

/-- C5 counterexample: the claim says a `stop(id)` issued by the
background pump against an already-removed entry succeeds as a no-op,
but `stop` has a single code path: on an identifier absent from the
store it returns the `UnknownSessionId` error — never the success value
`{ id }` — regardless of who invoked it. -/
theorem c5_counterexample :
    (SubscriptionManager.stop ⟨[], [], 0⟩ 7).1
        = Except.error (SofaError.unknownSessionId 7)
    ∧ (SubscriptionManager.stop ⟨[], [], 0⟩ 7).1 ≠ Except.ok 7 := by
  refine ⟨rfl, ?_⟩
  intro h
  exact Except.noConfusion h

/-- C5 (amended): `stop(id)` with an identifier not currently in the
store fails with `UnknownSessionId` and leaves the state unchanged, for
every caller — including the background pump calling it against an
already-removed entry (the pump merely discards the rejected promise). -/
theorem c5_stop_absent_errors (s : ManagerState) (id : Nat)
    (h : alistGet s.clients id = none) :
    SubscriptionManager.stop s id = (Except.error (SofaError.unknownSessionId id), s) := by
  unfold SubscriptionManager.stop
  rw [h]

/-- C8: when `start()` produces a live stream, the store gains exactly one
entry keyed by the returned identifier, and the returned response is
`{ id }` for every possible stream content (so the response does not wait
on, or depend on, any stream value); `stop()` with that identifier
removes the entry and succeeds, restoring the original client store, and
a second `stop()` with the same identifier fails with `UnknownSessionId`. -/
theorem c8_start_live_stream
    (parseVar : VariableDefinitionNode → Option String → Option String)
    (s : ManagerState) (name url : String) (supplied : String → Option String)
    (vs : List String) (op : BuiltOperation)
    (hop : smapGet s.operations name = some op)
    (hfresh : alistGet s.clients s.nextId = none) :
    SubscriptionManager.start (fun _ => SubscribeOutcome.stream vs) parseVar s name supplied url
      = (Except.ok (StartResponse.id s.nextId),
         { s with nextId := s.nextId + 1,
                  clients := alistSet s.clients s.nextId ⟨name, url, vs⟩ })
    ∧ alistGet (alistSet s.clients s.nextId (⟨name, url, vs⟩ : StoredClient)) s.nextId
        = some ⟨name, url, vs⟩
    ∧ (alistSet s.clients s.nextId (⟨name, url, vs⟩ : StoredClient)).length
        = s.clients.length + 1
    ∧ SubscriptionManager.stop
        ({ s with nextId := s.nextId + 1,
                  clients := alistSet s.clients s.nextId ⟨name, url, vs⟩ }) s.nextId
      = (Except.ok s.nextId, { s with nextId := s.nextId + 1 })
    ∧ (SubscriptionManager.stop ({ s with nextId := s.nextId + 1 }) s.nextId).1
      = Except.error (SofaError.unknownSessionId s.nextId) := by
  refine ⟨?_, alistGet_set_self _ _ _, alistSet_length_of_get_none _ _ _ hfresh, ?_, ?_⟩
  · unfold SubscriptionManager.start SubscriptionManager.execute
    simp [hop]
  · unfold SubscriptionManager.stop
    rw [alistGet_set_self]
    rw [alistRemove_set_of_get_none _ _ _ hfresh]
  · unfold SubscriptionManager.stop
    rw [hfresh]

/-- C8 witness. -/
theorem c8_start_live_stream_witness :
    SubscriptionManager.start (fun _ => SubscribeOutcome.stream ["v"]) (fun _ v => v)
        ⟨[("m", ⟨"mSubscription", ⟨[]⟩, []⟩)], [], 0⟩ "m" (fun _ => none) "http://cb"
      = (Except.ok (StartResponse.id 0),
         ⟨[("m", ⟨"mSubscription", ⟨[]⟩, []⟩)], [(0, ⟨"m", "http://cb", ["v"]⟩)], 1⟩) :=
  (c8_start_live_stream (fun _ v => v) ⟨[("m", ⟨"mSubscription", ⟨[]⟩, []⟩)], [], 0⟩
    "m" "http://cb" (fun _ => none) ["v"] ⟨"mSubscription", ⟨[]⟩, []⟩ rfl rfl).1

/-- C7: `update(id, newVariables)` on a stored identifier reads the
session's field name and callback target, stops the old session, starts
a new one with the same field and target and the new variables (here: a
live stream), and returns a fresh identifier distinct from `id`;
afterwards both `stop` and `update` with the old identifier fail with
`UnknownSessionId`. -/
theorem c7_update_replaces_session
    (parseVar : VariableDefinitionNode → Option String → Option String)
    (s : ManagerState) (id : Nat) (c : StoredClient) (op : BuiltOperation)
    (supplied supplied2 : String → Option String) (vs : List String)
    (hc : alistGet s.clients id = some c)
    (hop : smapGet s.operations c.name = some op)
    (hlt : id < s.nextId) :
    SubscriptionManager.update (fun _ => SubscribeOutcome.stream vs) parseVar s id supplied
      = (Except.ok (StartResponse.id s.nextId),
         { s with nextId := s.nextId + 1,
                  clients := alistSet (alistRemove s.clients id) s.nextId
                    ⟨c.name, c.url, vs⟩ })
    ∧ s.nextId ≠ id
    ∧ alistGet (alistSet (alistRemove s.clients id) s.nextId
        (⟨c.name, c.url, vs⟩ : StoredClient)) s.nextId = some ⟨c.name, c.url, vs⟩
    ∧ alistGet (alistSet (alistRemove s.clients id) s.nextId
        (⟨c.name, c.url, vs⟩ : StoredClient)) id = none
    ∧ (SubscriptionManager.stop
        ({ s with nextId := s.nextId + 1,
                  clients := alistSet (alistRemove s.clients id) s.nextId
                    ⟨c.name, c.url, vs⟩ }) id).1
      = Except.error (SofaError.unknownSessionId id)
    ∧ (SubscriptionManager.update (fun _ => SubscribeOutcome.stream vs) parseVar
        ({ s with nextId := s.nextId + 1,
                  clients := alistSet (alistRemove s.clients id) s.nextId
                    ⟨c.name, c.url, vs⟩ }) id supplied2).1
      = Except.error (SofaError.unknownSessionId id) := by
  have hne : s.nextId ≠ id := Ne.symm (Nat.ne_of_lt hlt)
  have hgone : alistGet (alistSet (alistRemove s.clients id) s.nextId
      (⟨c.name, c.url, vs⟩ : StoredClient)) id = none := by
    rw [alistGet_set_ne _ _ _ _ (Ne.symm hne), alistGet_remove_self]
  refine ⟨?_, hne, alistGet_set_self _ _ _, hgone, ?_, ?_⟩
  · unfold SubscriptionManager.update SubscriptionManager.stop
    rw [hc]
    unfold SubscriptionManager.start SubscriptionManager.execute
    simp [hop]
  · unfold SubscriptionManager.stop
    rw [hgone]
  · unfold SubscriptionManager.update
    rw [hgone]

/-- C7 witness. -/
theorem c7_update_replaces_session_witness :
    SubscriptionManager.update (fun _ => SubscribeOutcome.stream ["w"]) (fun _ v => v)
        ⟨[("m", ⟨"mSubscription", ⟨[]⟩, []⟩)], [(0, ⟨"m", "http://cb", []⟩)], 1⟩ 0
        (fun _ => none)
      = (Except.ok (StartResponse.id 1),
         ⟨[("m", ⟨"mSubscription", ⟨[]⟩, []⟩)], [(1, ⟨"m", "http://cb", ["w"]⟩)], 2⟩) :=
  (c7_update_replaces_session (fun _ v => v)
    ⟨[("m", ⟨"mSubscription", ⟨[]⟩, []⟩)], [(0, ⟨"m", "http://cb", []⟩)], 1⟩ 0
    ⟨"m", "http://cb", []⟩ ⟨"mSubscription", ⟨[]⟩, []⟩
    (fun _ => none) (fun _ => none) ["w"] rfl rfl (by decide)).1

/-- C5 witness. -/
theorem c5_stop_absent_errors_witness :
    SubscriptionManager.stop ⟨[], [(3, ⟨"m", "u", []⟩)], 4⟩ 7
      = (Except.error (SofaError.unknownSessionId 7), ⟨[], [(3, ⟨"m", "u", []⟩)], 4⟩) :=
  c5_stop_absent_errors ⟨[], [(3, ⟨"m", "u", []⟩)], 4⟩ 7 rfl

/-! ## Claim theorems: reference collapsing -/

/-- C3: any selection set resolved for an object type that is in the
Model Set and not ignored (neither by type name nor by the
`"ParentType.fieldName"` path string), outside the first (root) call, is
exactly the identifier-only selection set, with no recursion (the
synthesizer state is returned untouched); and the first-call root field
is exempt: synthesizing `subscription { m: Msg }` with `Msg` itself in
the Model Set still expands `m` fully to `m { id text }`. -/
theorem c3_model_collapse :
    (∀ (fuel : Nat) (schema : Schema) (parentName tname oname : String)
        (ofields : List FieldDef) (models ignore path : List String) (st : SynthState),
      lookupType schema tname = some (TypeDef.object oname ofields) →
      models.contains oname = true →
      ignore.contains oname = false →
      ignore.contains (parentName ++ "." ++ lastPathStep path) = false →
      resolveSelectionSet (fuel + 1) schema parentName tname models ignore false path st
        = some (some [Selection.field "id" [] none], st))
    ∧ (buildOperation 20 schemaRootModel OperationKind.subscription "m" ["Msg"] []
        initSynthState).map (fun p => p.1)
      = some { definitions := [{
          operation := OperationKind.subscription,
          name := "mSubscription",
          variableDefinitions := [],
          selectionSet := [Selection.field "m" []
            (some [Selection.field "id" [] none,
                   Selection.field "text" [] none])] }] } := by
  constructor
  · intro fuel schema parentName tname oname ofields models ignore path st
      hlook hmodel hign1 hign2
    replace hmodel : oname ∈ models := by simpa using hmodel
    replace hign1 : oname ∉ ignore := by simpa using hign1
    replace hign2 : parentName ++ "." ++ lastPathStep path ∉ ignore := by simpa using hign2
    unfold resolveSelectionSet
    rw [hlook]
    simp [hmodel, hign1, hign2]
  · rfl

/-- C3 witness. -/
theorem c3_model_collapse_witness :
    resolveSelectionSet 5 schemaC6 "Message" "User" ["User"] [] false
        ["messageAdded", "author"] initSynthState
      = some (some [Selection.field "id" [] none], initSynthState) :=
  c3_model_collapse.1 4 schemaC6 "Message" "User" "User"
    [⟨"id", [], TypeRef.named "ID"⟩, ⟨"name", [], TypeRef.named "String"⟩]
    ["User"] [] ["messageAdded", "author"] initSynthState rfl rfl rfl rfl

/-! ## Claim theorems: cycle guard

The filter at `part_000` line 218 looks up `visitedTypes[String(field.type)]`
(the wrapper-including rendering, e.g. `"B!"`) while line 228 marks
`visitedTypes[type.name]` (the bare name, e.g. `"B"`), so a cyclic
reference behind a list/non-null wrapper is never recognized as visited
and the recursion re-enters the cycle forever. The following lemma shows
every fuel bound is exhausted on `schemaCyc` (`A { b: B! }`,
`B { a: A! }`): the source recursion does not terminate there. -/

theorem cyc_diverges_all : ∀ fuel : Nat,
    (∀ (parentName : String) (path : List String) (st : SynthState) (firstCall : Bool),
      st.visitedTypes "A!" = false → st.visitedTypes "B!" = false →
      resolveSelectionSet fuel schemaCyc parentName "A" [] [] firstCall path st = none)
    ∧ (∀ (parentName : String) (path : List String) (st : SynthState) (firstCall : Bool),
      st.visitedTypes "A!" = false → st.visitedTypes "B!" = false →
      resolveSelectionSet fuel schemaCyc parentName "B" [] [] firstCall path st = none)
    ∧ (∀ (tname : String) (path : List String) (st : SynthState),
      st.visitedTypes "A!" = false → st.visitedTypes "B!" = false →
      resolveField fuel schemaCyc tname ⟨"b", [], TypeRef.nonNull (TypeRef.named "B")⟩
        [] [] false path st = none)
    ∧ (∀ (tname : String) (path : List String) (st : SynthState),
      st.visitedTypes "A!" = false → st.visitedTypes "B!" = false →
      resolveField fuel schemaCyc tname ⟨"a", [], TypeRef.nonNull (TypeRef.named "A")⟩
        [] [] false path st = none)
    ∧ (∀ (tname : String) (path : List String) (st : SynthState),
      st.visitedTypes "A!" = false → st.visitedTypes "B!" = false →
      resolveFields fuel schemaCyc tname [⟨"b", [], TypeRef.nonNull (TypeRef.named "B")⟩]
        [] [] path st = none)
    ∧ (∀ (tname : String) (path : List String) (st : SynthState),
      st.visitedTypes "A!" = false → st.visitedTypes "B!" = false →
      resolveFields fuel schemaCyc tname [⟨"a", [], TypeRef.nonNull (TypeRef.named "A")⟩]
        [] [] path st = none) := by
  intro fuel
  induction fuel with
  | zero =>
    exact ⟨fun _ _ _ _ _ _ => rfl, fun _ _ _ _ _ _ => rfl, fun _ _ _ _ _ => rfl,
           fun _ _ _ _ _ => rfl, fun _ _ _ _ _ => rfl, fun _ _ _ _ _ => rfl⟩
  | succ n ih =>
    obtain ⟨ihA, ihB, ihfb, ihfa, ihlb, ihla⟩ := ih
    refine ⟨?_, ?_, ?_, ?_, ?_, ?_⟩
    · intro parentName path st fc hA hB
      have hlook : lookupType schemaCyc "A"
          = some (TypeDef.object "A" [⟨"b", [], TypeRef.nonNull (TypeRef.named "B")⟩]) := rfl
      unfold resolveSelectionSet
      rw [hlook]
      simp only [List.contains_nil, Bool.and_false, Bool.false_and, Bool.false_eq_true,
        if_false, List.filter, typeToString, show ("B" ++ "!" : String) = "B!" from rfl,
        hB, Bool.not_false]
      rw [ihlb "A" path (setVisited st "A" true) (by simp [setVisited, hA])
        (by simp [setVisited, hB])]
    · intro parentName path st fc hA hB
      have hlook : lookupType schemaCyc "B"
          = some (TypeDef.object "B" [⟨"a", [], TypeRef.nonNull (TypeRef.named "A")⟩]) := rfl
      unfold resolveSelectionSet
      rw [hlook]
      simp only [List.contains_nil, Bool.and_false, Bool.false_and, Bool.false_eq_true,
        if_false, List.filter, typeToString, show ("A" ++ "!" : String) = "A!" from rfl,
        hA, Bool.not_false]
      rw [ihla "B" path (setVisited st "B" true) (by simp [setVisited, hA])
        (by simp [setVisited, hB])]
    · intro tname path st hA hB
      unfold resolveField
      simp [processArgs, getNamedTypeName, ihB tname (path ++ ["b"]) st false hA hB,
        show isScalar schemaCyc "B" = false from rfl]
    · intro tname path st hA hB
      unfold resolveField
      simp [processArgs, getNamedTypeName, ihA tname (path ++ ["a"]) st false hA hB,
        show isScalar schemaCyc "A" = false from rfl]
    · intro tname path st hA hB
      unfold resolveFields
      simp [ihfb tname (path ++ ["b"]) st hA hB]
    · intro tname path st hA hB
      unfold resolveFields
      simp [ihfa tname (path ++ ["a"]) st hA hB]

/-- C2: the claim's skip rule and termination fail on the code. The
cycle-guard lookup keys by the wrapper-including type string while the
marking keys by the bare type name, so on `schemaCyc` (`A { b: B! }`,
`B { a: A! }`) the expansion of `A` re-enters the cycle for every fuel
bound — the source recursion never terminates there — and consequently
synthesizing the subscription root field `r: A` completes for no fuel
bound either. -/
theorem c2_wrapped_cycle_diverges :
    (∀ (fuel : Nat) (parentName : String) (path : List String) (st : SynthState)
        (firstCall : Bool),
      st.visitedTypes "A!" = false → st.visitedTypes "B!" = false →
      resolveSelectionSet fuel schemaCyc parentName "A" [] [] firstCall path st = none)
    ∧ (∀ fuel : Nat,
      buildOperation fuel schemaCyc OperationKind.subscription "r" [] [] initSynthState = none) := by
  constructor
  · intro fuel
    exact (cyc_diverges_all fuel).1
  · intro fuel
    cases fuel with
    | zero => rfl
    | succ n =>
      have hroot : resolveField (n + 1) schemaCyc "Subscription"
          ⟨"r", [], TypeRef.named "A"⟩ [] [] true []
          (⟨[], initSynthState.visitedTypes⟩ : SynthState) = none := by
        unfold resolveField
        simp [processArgs, getNamedTypeName,
          show isScalar schemaCyc "A" = false from rfl,
          (cyc_diverges_all n).1 "Subscription" ["r"]
            (⟨[], initSynthState.visitedTypes⟩ : SynthState) true rfl rfl]
      have hdoc : buildDocumentNode (n + 1) schemaCyc OperationKind.subscription "r" [] []
          (⟨[], initSynthState.visitedTypes⟩ : SynthState) = none := by
        unfold buildDocumentNode
        simp [show schemaCyc.subscriptionType = some "Subscription" from rfl,
          show lookupType schemaCyc "Subscription"
            = some (TypeDef.object "Subscription" [⟨"r", [], TypeRef.named "A"⟩]) from rfl,
          List.find?, List.foldl, hroot]
      simp only [buildOperation]
      rw [hdoc]

/-- C2 witness. -/
theorem c2_wrapped_cycle_diverges_witness :
    resolveSelectionSet 9 schemaCyc "Subscription" "A" [] [] true ["r"] initSynthState = none :=
  c2_wrapped_cycle_diverges.1 9 "Subscription" ["r"] initSynthState true rfl rfl

/-! ## Structure of the variable accumulator

`processArgs_spec` characterizes the argument loop of `resolveField`
completely; `vars_factor_all` shows every synthesizer function only
appends to the variable accumulator, with the appended suffix and all
other outputs independent of the accumulator's prior contents. -/

theorem processArgs_spec (args : List ArgDef) (firstCall : Bool) (path : List String)
    (st : SynthState) :
    processArgs args firstCall path st
      = (args.map (fun a => ⟨a.name, getArgumentName a.name path⟩),
         ⟨st.operationVariables ++
            (if firstCall then []
             else args.map (fun a => resolveVariable a (some (getArgumentName a.name path)))),
          st.visitedTypes⟩) := by
  induction args generalizing st with
  | nil => cases firstCall <;> simp [processArgs]
  | cons a rest ih =>
    cases firstCall with
    | true => simp [processArgs, ih]
    | false => simp [processArgs, addOperationVariable, ih]

theorem vars_factor_all : ∀ fuel : Nat,
    (∀ (schema : Schema) (parentName tname : String) (models ignore : List String)
        (firstCall : Bool) (path : List String) (vs : List VariableDefinitionNode)
        (v : String → Bool),
      resolveSelectionSet fuel schema parentName tname models ignore firstCall path ⟨vs, v⟩
        = Option.map (fun r => (r.1,
            (⟨vs ++ r.2.operationVariables, r.2.visitedTypes⟩ : SynthState)))
            (resolveSelectionSet fuel schema parentName tname models ignore firstCall path ⟨[], v⟩))
    ∧ (∀ (schema : Schema) (members : List String) (models ignore : List String)
        (path : List String) (vs : List VariableDefinitionNode) (v : String → Bool),
      resolveUnion fuel schema members models ignore path ⟨vs, v⟩
        = Option.map (fun r => (r.1,
            (⟨vs ++ r.2.operationVariables, r.2.visitedTypes⟩ : SynthState)))
            (resolveUnion fuel schema members models ignore path ⟨[], v⟩))
    ∧ (∀ (schema : Schema) (tname : String) (fs : List FieldDef)
        (models ignore : List String) (path : List String)
        (vs : List VariableDefinitionNode) (v : String → Bool),
      resolveFields fuel schema tname fs models ignore path ⟨vs, v⟩
        = Option.map (fun r => (r.1,
            (⟨vs ++ r.2.operationVariables, r.2.visitedTypes⟩ : SynthState)))
            (resolveFields fuel schema tname fs models ignore path ⟨[], v⟩))
    ∧ (∀ (schema : Schema) (typeName : String) (field : FieldDef)
        (models ignore : List String) (firstCall : Bool) (path : List String)
        (vs : List VariableDefinitionNode) (v : String → Bool),
      resolveField fuel schema typeName field models ignore firstCall path ⟨vs, v⟩
        = Option.map (fun r => (r.1,
            (⟨vs ++ r.2.operationVariables, r.2.visitedTypes⟩ : SynthState)))
            (resolveField fuel schema typeName field models ignore firstCall path ⟨[], v⟩)) := by
  intro fuel
  induction fuel with
  | zero => exact ⟨fun _ _ _ _ _ _ _ _ _ => rfl, fun _ _ _ _ _ _ _ => rfl,
      fun _ _ _ _ _ _ _ _ => rfl, fun _ _ _ _ _ _ _ _ _ => rfl⟩
  | succ n ih =>
    obtain ⟨ihS, ihU, ihL, ihF⟩ := ih
    refine ⟨?_, ?_, ?_, ?_⟩
    · intro schema parentName tname models ignore firstCall path vs v
      unfold resolveSelectionSet
      cases hl : lookupType schema tname with
      | none => simp
      | some td =>
        cases td with
        | scalar sname => simp
        | union uname members =>
          dsimp only
          rw [ihU schema members models ignore path vs v]
          cases hu : resolveUnion n schema members models ignore path ⟨[], v⟩ with
          | none => simp
          | some r => simp
        | object oname ofields =>
          dsimp only
          by_cases hcol : (!firstCall && models.contains oname
              && !(ignore.contains oname
                   || ignore.contains (parentName ++ "." ++ lastPathStep path))) = true
          · rw [if_pos hcol, if_pos hcol]
            simp
          · rw [if_neg hcol, if_neg hcol]
            dsimp only [setVisited]
            rw [ihL schema oname
              (List.filter (fun f => !v (typeToString f.type)) ofields) models ignore path vs
              (fun x => if x = oname then true else v x)]
            cases hfs : resolveFields n schema oname
                (List.filter (fun f => !v (typeToString f.type)) ofields) models ignore path
                ⟨[], fun x => if x = oname then true else v x⟩ with
            | none => simp
            | some r =>
              obtain ⟨sels, w, vis⟩ := r
              simp [setVisited]
    · intro schema members models ignore path vs v
      unfold resolveUnion
      cases members with
      | nil => simp
      | cons m ms =>
        dsimp only
        rw [ihL schema m _ models ignore path vs v]
        cases hf : resolveFields n schema m
            (match lookupType schema m with
             | some (TypeDef.object _ fs) => fs
             | _ => []) models ignore path ⟨[], v⟩ with
        | none => simp
        | some r =>
          obtain ⟨sels, w, vis⟩ := r
          simp only [Option.map_some']
          rw [ihU schema ms models ignore path (vs ++ w) vis,
            ihU schema ms models ignore path w vis]
          cases hu : resolveUnion n schema ms models ignore path ⟨[], vis⟩ with
          | none => simp
          | some r2 => simp
    · intro schema tname fs models ignore path vs v
      unfold resolveFields
      cases fs with
      | nil => simp
      | cons f rest =>
        dsimp only
        rw [ihF schema tname f models ignore false (path ++ [f.name]) vs v]
        cases hf : resolveField n schema tname f models ignore false (path ++ [f.name])
            ⟨[], v⟩ with
        | none => simp
        | some r =>
          obtain ⟨sel, w, vis⟩ := r
          simp only [Option.map_some']
          rw [ihL schema tname rest models ignore path (vs ++ w) vis,
            ihL schema tname rest models ignore path w vis]
          cases hl2 : resolveFields n schema tname rest models ignore path ⟨[], vis⟩ with
          | none => simp
          | some r2 => simp
    · intro schema typeName field models ignore firstCall path vs v
      unfold resolveField
      rw [processArgs_spec field.args firstCall path ⟨vs, v⟩,
        processArgs_spec field.args firstCall path ⟨[], v⟩]
      by_cases hsc : isScalar schema (getNamedTypeName field.type) = true
      · rw [if_pos hsc, if_pos hsc]
        simp
      · rw [if_neg hsc, if_neg hsc]
        dsimp only
        rw [ihS schema typeName (getNamedTypeName field.type) models ignore firstCall
            (path ++ [field.name])
            (vs ++ (if firstCall then []
              else field.args.map
                (fun a => resolveVariable a (some (getArgumentName a.name path))))) v,
          ihS schema typeName (getNamedTypeName field.type) models ignore firstCall
            (path ++ [field.name])
            ([] ++ (if firstCall then []
              else field.args.map
                (fun a => resolveVariable a (some (getArgumentName a.name path))))) v]
        cases hss : resolveSelectionSet n schema typeName (getNamedTypeName field.type)
            models ignore firstCall (path ++ [field.name]) ⟨[], v⟩ with
        | none => simp
        | some r =>
          obtain ⟨sub, w, vis⟩ := r
          simp

/-! ## Restoration of the visited-type record

Every completed traversal leaves each `visitedTypes` key either `false`
or unchanged: each object expansion unconditionally clears its own key on
exit, so a run started from an all-false record ends in an all-false
record. -/

theorem clearsTo_refl (v : String → Bool) : clearsTo v v :=
  fun k => Or.inr rfl

theorem clearsTo_trans {u v w : String → Bool} (h1 : clearsTo u v) (h2 : clearsTo v w) :
    clearsTo u w := by
  intro k
  cases h1 k with
  | inl h => exact Or.inl h
  | inr h =>
    cases h2 k with
    | inl h' => exact Or.inl (h ▸ h')
    | inr h' => exact Or.inr (h ▸ h')

theorem visited_clears_all : ∀ fuel : Nat,
    (∀ (schema : Schema) (parentName tname : String) (models ignore : List String)
        (firstCall : Bool) (path : List String) (st : SynthState)
        (r : Option (List Selection)) (st' : SynthState),
      resolveSelectionSet fuel schema parentName tname models ignore firstCall path st
          = some (r, st') →
      clearsTo st'.visitedTypes st.visitedTypes)
    ∧ (∀ (schema : Schema) (members : List String) (models ignore : List String)
        (path : List String) (st : SynthState) (r : List Selection) (st' : SynthState),
      resolveUnion fuel schema members models ignore path st = some (r, st') →
      clearsTo st'.visitedTypes st.visitedTypes)
    ∧ (∀ (schema : Schema) (tname : String) (fs : List FieldDef)
        (models ignore : List String) (path : List String) (st : SynthState)
        (r : List Selection) (st' : SynthState),
      resolveFields fuel schema tname fs models ignore path st = some (r, st') →
      clearsTo st'.visitedTypes st.visitedTypes)
    ∧ (∀ (schema : Schema) (typeName : String) (field : FieldDef)
        (models ignore : List String) (firstCall : Bool) (path : List String)
        (st : SynthState) (r : Selection) (st' : SynthState),
      resolveField fuel schema typeName field models ignore firstCall path st = some (r, st') →
      clearsTo st'.visitedTypes st.visitedTypes) := by
  intro fuel
  induction fuel with
  | zero =>
    exact ⟨fun _ _ _ _ _ _ _ _ _ _ h => Option.noConfusion h,
           fun _ _ _ _ _ _ _ _ h => Option.noConfusion h,
           fun _ _ _ _ _ _ _ _ _ h => Option.noConfusion h,
           fun _ _ _ _ _ _ _ _ _ _ h => Option.noConfusion h⟩
  | succ n ih =>
    obtain ⟨ihS, ihU, ihL, ihF⟩ := ih
    refine ⟨?_, ?_, ?_, ?_⟩
    · intro schema parentName tname models ignore firstCall path st r st' h
      unfold resolveSelectionSet at h
      cases hl : lookupType schema tname with
      | none =>
        rw [hl] at h
        dsimp only at h
        simp only [Option.some.injEq, Prod.mk.injEq] at h
        obtain ⟨h1, h2⟩ := h
        subst h2
        exact clearsTo_refl _
      | some td =>
        rw [hl] at h
        cases td with
        | scalar sname =>
          dsimp only at h
          simp only [Option.some.injEq, Prod.mk.injEq] at h
          obtain ⟨h1, h2⟩ := h
          subst h2
          exact clearsTo_refl _
        | union uname members =>
          dsimp only at h
          cases hu : resolveUnion n schema members models ignore path st with
          | none => rw [hu] at h; exact Option.noConfusion h
          | some r1 =>
            obtain ⟨sels, st1⟩ := r1
            rw [hu] at h
            dsimp only at h
            simp only [Option.some.injEq, Prod.mk.injEq] at h
            obtain ⟨h1, h2⟩ := h
            subst h2
            exact ihU schema members models ignore path st sels st1 hu
        | object oname ofields =>
          dsimp only at h
          by_cases hcol : (!firstCall && models.contains oname
              && !(ignore.contains oname
                   || ignore.contains (parentName ++ "." ++ lastPathStep path))) = true
          · rw [if_pos hcol] at h
            simp only [Option.some.injEq, Prod.mk.injEq] at h
            obtain ⟨h1, h2⟩ := h
            subst h2
            exact clearsTo_refl _
          · rw [if_neg hcol] at h
            cases hfs : resolveFields n schema oname
                (List.filter (fun f => !st.visitedTypes (typeToString f.type)) ofields)
                models ignore path (setVisited st oname true) with
            | none => rw [hfs] at h; exact Option.noConfusion h
            | some r1 =>
              obtain ⟨sels, st2⟩ := r1
              rw [hfs] at h
              dsimp only at h
              simp only [Option.some.injEq, Prod.mk.injEq] at h
              obtain ⟨h1, h2⟩ := h
              subst h2
              have hmid := ihL schema oname
                (List.filter (fun f => !st.visitedTypes (typeToString f.type)) ofields)
                models ignore path (setVisited st oname true) sels st2 hfs
              intro k
              by_cases hk : k = oname
              · exact Or.inl (by simp [setVisited, hk])
              · have hset : (setVisited st2 oname false).visitedTypes k = st2.visitedTypes k := by
                  simp [setVisited, hk]
                rw [hset]
                cases hmid k with
                | inl h' => exact Or.inl h'
                | inr h' =>
                  have : (setVisited st oname true).visitedTypes k = st.visitedTypes k := by
                    simp [setVisited, hk]
                  rw [h', this]
                  exact Or.inr rfl
    · intro schema members models ignore path st r st' h
      unfold resolveUnion at h
      cases members with
      | nil =>
        dsimp only at h
        simp only [Option.some.injEq, Prod.mk.injEq] at h
        obtain ⟨h1, h2⟩ := h
        subst h2
        exact clearsTo_refl _
      | cons m ms =>
        dsimp only at h
        cases hf : resolveFields n schema m
            (match lookupType schema m with
             | some (TypeDef.object _ fs) => fs
             | _ => []) models ignore path st with
        | none => rw [hf] at h; exact Option.noConfusion h
        | some r1 =>
          obtain ⟨sels, st1⟩ := r1
          rw [hf] at h
          dsimp only at h
          cases hu : resolveUnion n schema ms models ignore path st1 with
          | none => rw [hu] at h; exact Option.noConfusion h
          | some r2 =>
            obtain ⟨rest, st2⟩ := r2
            rw [hu] at h
            dsimp only at h
            simp only [Option.some.injEq, Prod.mk.injEq] at h
            obtain ⟨h1, h2⟩ := h
            subst h2
            exact clearsTo_trans (ihU schema ms models ignore path st1 rest st2 hu)
              (ihL schema m _ models ignore path st sels st1 hf)
    · intro schema tname fs models ignore path st r st' h
      unfold resolveFields at h
      cases fs with
      | nil =>
        dsimp only at h
        simp only [Option.some.injEq, Prod.mk.injEq] at h
        obtain ⟨h1, h2⟩ := h
        subst h2
        exact clearsTo_refl _
      | cons f rest =>
        dsimp only at h
        cases hf : resolveField n schema tname f models ignore false (path ++ [f.name]) st with
        | none => rw [hf] at h; exact Option.noConfusion h
        | some r1 =>
          obtain ⟨sel, st1⟩ := r1
          rw [hf] at h
          dsimp only at h
          cases hl2 : resolveFields n schema tname rest models ignore path st1 with
          | none => rw [hl2] at h; exact Option.noConfusion h
          | some r2 =>
            obtain ⟨sels, st2⟩ := r2
            rw [hl2] at h
            dsimp only at h
            simp only [Option.some.injEq, Prod.mk.injEq] at h
            obtain ⟨h1, h2⟩ := h
            subst h2
            exact clearsTo_trans (ihL schema tname rest models ignore path st1 sels st2 hl2)
              (ihF schema tname f models ignore false (path ++ [f.name]) st sel st1 hf)
    · intro schema typeName field models ignore firstCall path st r st' h
      unfold resolveField at h
      dsimp only at h
      rw [processArgs_spec field.args firstCall path st] at h
      by_cases hsc : isScalar schema (getNamedTypeName field.type) = true
      · rw [if_pos hsc] at h
        simp only [Option.some.injEq, Prod.mk.injEq] at h
        obtain ⟨h1, h2⟩ := h
        subst h2
        exact clearsTo_refl _
      · rw [if_neg hsc] at h
        cases hss : resolveSelectionSet n schema typeName (getNamedTypeName field.type)
            models ignore firstCall (path ++ [field.name])
            (⟨st.operationVariables ++
              (if firstCall then []
               else field.args.map
                 (fun a => resolveVariable a (some (getArgumentName a.name path)))),
              st.visitedTypes⟩ : SynthState) with
        | none => rw [hss] at h; exact Option.noConfusion h
        | some r1 =>
          obtain ⟨sub, st2⟩ := r1
          rw [hss] at h
          dsimp only at h
          simp only [Option.some.injEq, Prod.mk.injEq] at h
          obtain ⟨h1, h2⟩ := h
          subst h2
          exact ihS schema typeName (getNamedTypeName field.type) models ignore firstCall
            (path ++ [field.name])
            (⟨st.operationVariables ++
              (if firstCall then []
               else field.args.map
                 (fun a => resolveVariable a (some (getArgumentName a.name path)))),
              st.visitedTypes⟩ : SynthState) sub st2 hss

/-! ## Document-level helper lemmas -/

theorem resolveVariable_none_name (a : ArgDef) : (resolveVariable a none).name = a.name := rfl

theorem foldl_addOperationVariable (args : List ArgDef) (st : SynthState) :
    args.foldl (fun s a => addOperationVariable s (resolveVariable a none)) st
      = ⟨st.operationVariables ++ args.map (fun a => resolveVariable a none),
         st.visitedTypes⟩ := by
  induction args generalizing st with
  | nil => simp
  | cons a rest ih =>
    rw [List.foldl_cons, ih]
    simp [addOperationVariable]

theorem buildDocumentNode_spec (fuel : Nat) (schema : Schema) (kind : OperationKind)
    (fieldName : String) (models ignore : List String) (st : SynthState)
    (rootName rname : String) (rootFields : List FieldDef) (field : FieldDef)
    (hq : (match kind with
           | OperationKind.query => schema.queryType
           | OperationKind.mutation => schema.mutationType
           | OperationKind.subscription => schema.subscriptionType) = some rootName)
    (ht : lookupType schema rootName = some (TypeDef.object rname rootFields))
    (hf : rootFields.find? (fun f => f.name = fieldName) = some field) :
    buildDocumentNode fuel schema kind fieldName models ignore st
      = match resolveField fuel schema rootName field models ignore true []
          (⟨st.operationVariables ++ field.args.map (fun a => resolveVariable a none),
            st.visitedTypes⟩ : SynthState) with
        | none => none
        | some (sel, st2) =>
          some (⟨[⟨kind, buildOperationName (fieldName ++ "_" ++ kind.str), [], [sel]⟩]⟩, st2) := by
  unfold buildDocumentNode
  rw [hq]
  dsimp only
  rw [ht]
  dsimp only
  rw [hf]
  dsimp only
  rw [foldl_addOperationVariable]

theorem resolveField_root_spec (fuel : Nat) (schema : Schema) (typeName : String)
    (field : FieldDef) (models ignore : List String)
    (vs : List VariableDefinitionNode) (v : String → Bool) (sel : Selection) (st2 : SynthState)
    (h : resolveField fuel schema typeName field models ignore true [] ⟨vs, v⟩
          = some (sel, st2)) :
    ∃ (sub : Option (List Selection)) (ds : List VariableDefinitionNode),
      sel = Selection.field field.name
        (field.args.map (fun a => ⟨a.name, camel a.name⟩)) sub
      ∧ st2.operationVariables = vs ++ ds := by
  cases fuel with
  | zero => exact Option.noConfusion h
  | succ n =>
    unfold resolveField at h
    dsimp only at h
    rw [processArgs_spec field.args true [] ⟨vs, v⟩] at h
    simp only [if_true] at h
    by_cases hsc : isScalar schema (getNamedTypeName field.type) = true
    · rw [if_pos hsc] at h
      simp only [Option.some.injEq, Prod.mk.injEq] at h
      obtain ⟨h1, h2⟩ := h
      subst h2
      exact ⟨none, [], h1.symm, rfl⟩
    · rw [if_neg hsc] at h
      rw [(vars_factor_all n).1 schema typeName (getNamedTypeName field.type) models ignore
        true ([] ++ [field.name]) (vs ++ []) v] at h
      cases hss : resolveSelectionSet n schema typeName (getNamedTypeName field.type)
          models ignore true ([] ++ [field.name]) ⟨[], v⟩ with
      | none => rw [hss] at h; exact Option.noConfusion h
      | some r =>
        obtain ⟨sub1, w, vis⟩ := r
        rw [hss] at h
        simp only [Option.map_some'] at h
        simp only [Option.some.injEq, Prod.mk.injEq] at h
        obtain ⟨h1, h2⟩ := h
        subst h2
        refine ⟨sub1, w, h1.symm, by simp⟩

theorem buildDocumentNode_clears (fuel : Nat) (schema : Schema) (kind : OperationKind)
    (fieldName : String) (models ignore : List String) (st : SynthState)
    (doc : Document) (st' : SynthState)
    (h : buildDocumentNode fuel schema kind fieldName models ignore st = some (doc, st')) :
    clearsTo st'.visitedTypes st.visitedTypes := by
  unfold buildDocumentNode at h
  cases hq : (match kind with
      | OperationKind.query => schema.queryType
      | OperationKind.mutation => schema.mutationType
      | OperationKind.subscription => schema.subscriptionType) with
  | none => rw [hq] at h; exact Option.noConfusion h
  | some rootName =>
    rw [hq] at h
    dsimp only at h
    cases ht : lookupType schema rootName with
    | none => rw [ht] at h; exact Option.noConfusion h
    | some td =>
      rw [ht] at h
      cases td with
      | scalar n => exact Option.noConfusion h
      | union n ms => exact Option.noConfusion h
      | object rname rootFields =>
        dsimp only at h
        cases hf : rootFields.find? (fun f => f.name = fieldName) with
        | none => rw [hf] at h; exact Option.noConfusion h
        | some field =>
          rw [hf] at h
          dsimp only at h
          rw [foldl_addOperationVariable] at h
          cases hrf : resolveField fuel schema rootName field models ignore true []
              (⟨st.operationVariables ++ field.args.map (fun a => resolveVariable a none),
                st.visitedTypes⟩ : SynthState) with
          | none => rw [hrf] at h; exact Option.noConfusion h
          | some r =>
            obtain ⟨sel, st2⟩ := r
            rw [hrf] at h
            dsimp only at h
            simp only [Option.some.injEq, Prod.mk.injEq] at h
            obtain ⟨h1, h2⟩ := h
            subst h2
            exact (visited_clears_all fuel).2.2.2 schema rootName field models ignore true []
              (⟨st.operationVariables ++ field.args.map (fun a => resolveVariable a none),
                st.visitedTypes⟩ : SynthState) sel st2 hrf

theorem buildOperation_state_reset (fuel : Nat) (schema : Schema) (kind : OperationKind)
    (fieldName : String) (models ignore : List String) (st : SynthState) :
    buildOperation fuel schema kind fieldName models ignore st
      = buildOperation fuel schema kind fieldName models ignore ⟨[], st.visitedTypes⟩ := rfl

theorem buildOperation_clears (fuel : Nat) (schema : Schema) (kind : OperationKind)
    (fieldName : String) (models ignore : List String) (st : SynthState)
    (doc : Document) (st' : SynthState)
    (h : buildOperation fuel schema kind fieldName models ignore st = some (doc, st')) :
    st'.operationVariables = [] ∧ clearsTo st'.visitedTypes st.visitedTypes := by
  unfold buildOperation at h
  dsimp only at h
  cases hbd : buildDocumentNode fuel schema kind fieldName models ignore
      (⟨[], st.visitedTypes⟩ : SynthState) with
  | none => rw [hbd] at h; exact Option.noConfusion h
  | some r =>
    obtain ⟨doc0, st1⟩ := r
    rw [hbd] at h
    dsimp only at h
    simp only [Option.some.injEq, Prod.mk.injEq] at h
    obtain ⟨h1, h2⟩ := h
    subst h2
    exact ⟨rfl, buildDocumentNode_clears fuel schema kind fieldName models ignore
      (⟨[], st.visitedTypes⟩ : SynthState) doc0 st1 hbd⟩

/-! ## Claim theorems: variable naming -/

/-- C4 counterexample: for `schemaDup` (root field `r: R`,
`R { userName(id: String), user(nameId: String), inner: U }`,
`U { deep(x: String) }`) the synthesized document's ordered variable
names are `rUserNameId, rUserNameId, rInnerInnerDeepX`: the first two
collide (camel-casing `r_userName_id` and `r_user_nameId` coincide), so
two variable definitions in one document do share a name, and the third
doubles the intermediate field name `inner`, so it differs from the
camel-cased join `rInnerDeepX` of the plain field path plus argument
name. -/
theorem c4_counterexample :
    (buildOperation 20 schemaDup OperationKind.subscription "r" [] [] initSynthState).map
        (fun p => p.1.definitions.map (fun d => d.variableDefinitions.map (fun vd => vd.name)))
      = some [["rUserNameId", "rUserNameId", "rInnerInnerDeepX"]]
    ∧ camel (joinUnderscore ["r", "userName", "id"])
        = camel (joinUnderscore ["r", "user", "nameId"])
    ∧ ("rInnerInnerDeepX" : String) ≠ camel (joinUnderscore ["r", "inner", "deep", "x"]) := by
  refine ⟨rfl, rfl, ?_⟩
  decide

/-- C4 (amended): every non-root argument occurrence appends exactly one
variable definition named by camel-casing the underscore-join of the
traversal path it is resolved under plus the argument name (that path
repeats each field name strictly between the root field and the
argument's own field, as the concrete `rInnerInnerDeepX` run shows);
root-field arguments keep the bare argument name (they form the prefix
of the document's variable list); re-synthesizing the same field from a
clean traversal state yields the identical document and variable list;
but distinct occurrences may share a name when the camel-cased joins
coincide. -/
theorem c4_variable_naming_amended :
    (∀ (args : List ArgDef) (path : List String) (st : SynthState),
      (processArgs args false path st).2.operationVariables
        = st.operationVariables
          ++ args.map (fun a => resolveVariable a (some (getArgumentName a.name path))))
    ∧ (∀ (a : ArgDef) (path : List String),
      getArgumentName a.name path ≠ "" →
      (resolveVariable a (some (getArgumentName a.name path))).name
        = getArgumentName a.name path)
    ∧ (∀ (fuel : Nat) (schema : Schema) (kind : OperationKind) (fieldName : String)
        (models ignore : List String) (st : SynthState) (rootName rname : String)
        (rootFields : List FieldDef) (field : FieldDef) (doc : Document) (st' : SynthState),
      (match kind with
       | OperationKind.query => schema.queryType
       | OperationKind.mutation => schema.mutationType
       | OperationKind.subscription => schema.subscriptionType) = some rootName →
      lookupType schema rootName = some (TypeDef.object rname rootFields) →
      rootFields.find? (fun f => f.name = fieldName) = some field →
      buildOperation fuel schema kind fieldName models ignore st = some (doc, st') →
      ∃ ds, doc.definitions.map (fun d => d.variableDefinitions)
        = [field.args.map (fun a => resolveVariable a none) ++ ds])
    ∧ (∀ (fuel : Nat) (schema : Schema) (kind : OperationKind) (fieldName : String)
        (models ignore : List String) (st : SynthState) (doc : Document) (st' : SynthState),
      (∀ k, st.visitedTypes k = false) →
      buildOperation fuel schema kind fieldName models ignore st = some (doc, st') →
      buildOperation fuel schema kind fieldName models ignore st' = some (doc, st'))
    ∧ (buildOperation 20 schemaDup OperationKind.subscription "r" [] [] initSynthState).map
        (fun p => p.1.definitions.map (fun d => d.variableDefinitions.map (fun vd => vd.name)))
      = some [["rUserNameId", "rUserNameId", "rInnerInnerDeepX"]] := by
  refine ⟨?_, ?_, ?_, ?_, rfl⟩
  · intro args path st
    rw [processArgs_spec args false path st]
    simp
  · intro a path hne
    simp [resolveVariable, hne]
  · intro fuel schema kind fieldName models ignore st rootName rname rootFields field doc st'
      hq ht hf hb
    unfold buildOperation at hb
    dsimp only at hb
    rw [buildDocumentNode_spec fuel schema kind fieldName models ignore
      (⟨[], st.visitedTypes⟩ : SynthState) rootName rname rootFields field hq ht hf] at hb
    dsimp only [List.nil_append] at hb
    cases hrf : resolveField fuel schema rootName field models ignore true []
        (⟨field.args.map (fun a => resolveVariable a none), st.visitedTypes⟩ : SynthState) with
    | none => rw [hrf] at hb; exact Option.noConfusion hb
    | some r =>
      obtain ⟨sel, st2⟩ := r
      rw [hrf] at hb
      dsimp only at hb
      simp only [Option.some.injEq, Prod.mk.injEq] at hb
      obtain ⟨h1, h2⟩ := hb
      obtain ⟨sub, ds, hsel, hvars⟩ := resolveField_root_spec fuel schema rootName field
        models ignore (field.args.map (fun a => resolveVariable a none)) st.visitedTypes
        sel st2 hrf
      refine ⟨ds, ?_⟩
      rw [← h1]
      simp [hvars]
  · intro fuel schema kind fieldName models ignore st doc st' hv h
    obtain ⟨hvars, hclr⟩ := buildOperation_clears fuel schema kind fieldName models ignore
      st doc st' h
    have hvz : ∀ k, st'.visitedTypes k = false := by
      intro k
      cases hclr k with
      | inl h' => exact h'
      | inr h' => rw [h']; exact hv k
    have e1 : st.visitedTypes = (fun _ => false) := funext hv
    have e2 : st'.visitedTypes = (fun _ => false) := funext hvz
    calc buildOperation fuel schema kind fieldName models ignore st'
        = buildOperation fuel schema kind fieldName models ignore ⟨[], st'.visitedTypes⟩ :=
          buildOperation_state_reset fuel schema kind fieldName models ignore st'
      _ = buildOperation fuel schema kind fieldName models ignore ⟨[], st.visitedTypes⟩ := by
          rw [e1, e2]
      _ = buildOperation fuel schema kind fieldName models ignore st :=
          (buildOperation_state_reset fuel schema kind fieldName models ignore st).symm
      _ = some (doc, st') := h

/-- C4 witness. -/
theorem c4_variable_naming_amended_witness :
    ∃ (doc : Document) (st' : SynthState) (ds : List VariableDefinitionNode),
      buildOperation 20 schemaC6 OperationKind.subscription "messageAdded" ["User"] []
          initSynthState = some (doc, st')
      ∧ doc.definitions.map (fun d => d.variableDefinitions)
          = [[⟨"roomId", TypeNode.nonNullT (TypeNode.namedT "ID")⟩] ++ ds]
      ∧ buildOperation 20 schemaC6 OperationKind.subscription "messageAdded" ["User"] [] st'
          = some (doc, st') := by
  obtain ⟨d, s, hrun⟩ : ∃ d s,
      buildOperation 20 schemaC6 OperationKind.subscription "messageAdded" ["User"] []
        initSynthState = some (d, s) := ⟨_, _, rfl⟩
  obtain ⟨ds, hds⟩ := c4_variable_naming_amended.2.2.1 20 schemaC6 OperationKind.subscription
    "messageAdded" ["User"] [] initSynthState "Subscription" "Subscription"
    [⟨"messageAdded", [⟨"roomId", TypeRef.nonNull (TypeRef.named "ID")⟩],
      TypeRef.named "Message"⟩]
    ⟨"messageAdded", [⟨"roomId", TypeRef.nonNull (TypeRef.named "ID")⟩],
      TypeRef.named "Message"⟩ d s rfl rfl rfl hrun
  exact ⟨d, s, ds, hrun, hds,
    c4_variable_naming_amended.2.2.2.1 20 schemaC6 OperationKind.subscription "messageAdded"
      ["User"] [] initSynthState d s (fun _ => rfl) hrun⟩

/-- C10: for the root field's arguments, the emitted argument values
reference the variable named `camel(arg.name)` while the variable
definitions keep the bare `arg.name`; the two coincide exactly when the
argument name is already in camel case — concretely, `room_id` yields a
definition `$room_id` but a selection referencing `$roomId`. -/
theorem c10_root_argument_reference_vs_definition :
    (∀ (fuel : Nat) (schema : Schema) (kind : OperationKind) (fieldName : String)
        (models ignore : List String) (st : SynthState) (rootName rname : String)
        (rootFields : List FieldDef) (field : FieldDef) (doc : Document) (st' : SynthState),
      (match kind with
       | OperationKind.query => schema.queryType
       | OperationKind.mutation => schema.mutationType
       | OperationKind.subscription => schema.subscriptionType) = some rootName →
      lookupType schema rootName = some (TypeDef.object rname rootFields) →
      rootFields.find? (fun f => f.name = fieldName) = some field →
      buildOperation fuel schema kind fieldName models ignore st = some (doc, st') →
      ∃ (sub : Option (List Selection)) (ds : List VariableDefinitionNode),
        doc.definitions.map (fun d => d.selectionSet)
          = [[Selection.field fieldName
              (field.args.map (fun a => ⟨a.name, camel a.name⟩)) sub]]
        ∧ doc.definitions.map (fun d => d.variableDefinitions)
          = [field.args.map (fun a => resolveVariable a none) ++ ds]
        ∧ (∀ a ∈ field.args, (resolveVariable a none).name = a.name)
        ∧ (∀ a ∈ field.args,
            ((⟨a.name, camel a.name⟩ : ArgumentNode).value = (resolveVariable a none).name
              ↔ camel a.name = a.name)))
    ∧ camel "room_id" = "roomId"
    ∧ ("roomId" : String) ≠ "room_id" := by
  refine ⟨?_, rfl, by decide⟩
  intro fuel schema kind fieldName models ignore st rootName rname rootFields field doc st'
    hq ht hf hb
  have hname : field.name = fieldName := by
    have := List.find?_some hf
    simpa using this
  unfold buildOperation at hb
  dsimp only at hb
  rw [buildDocumentNode_spec fuel schema kind fieldName models ignore
    (⟨[], st.visitedTypes⟩ : SynthState) rootName rname rootFields field hq ht hf] at hb
  dsimp only [List.nil_append] at hb
  cases hrf : resolveField fuel schema rootName field models ignore true []
      (⟨field.args.map (fun a => resolveVariable a none), st.visitedTypes⟩ : SynthState) with
  | none => rw [hrf] at hb; exact Option.noConfusion hb
  | some r =>
    obtain ⟨sel, st2⟩ := r
    rw [hrf] at hb
    dsimp only at hb
    simp only [Option.some.injEq, Prod.mk.injEq] at hb
    obtain ⟨h1, h2⟩ := hb
    obtain ⟨sub, ds, hsel, hvars⟩ := resolveField_root_spec fuel schema rootName field
      models ignore (field.args.map (fun a => resolveVariable a none)) st.visitedTypes
      sel st2 hrf
    refine ⟨sub, ds, ?_, ?_, fun a _ => rfl, fun a _ => Iff.rfl⟩
    · rw [← h1]
      simp [hsel, hname]
    · rw [← h1]
      simp [hvars]

/-- C10 witness. -/
theorem c10_root_argument_reference_vs_definition_witness :
    ∃ (doc : Document) (st' : SynthState) (sub : Option (List Selection))
        (ds : List VariableDefinitionNode),
      buildOperation 20 schemaRoomUnderscore OperationKind.subscription "messageAdded"
          [] [] initSynthState = some (doc, st')
      ∧ doc.definitions.map (fun d => d.selectionSet)
          = [[Selection.field "messageAdded" [⟨"room_id", "roomId"⟩] sub]]
      ∧ doc.definitions.map (fun d => d.variableDefinitions)
          = [[⟨"room_id", TypeNode.nonNullT (TypeNode.namedT "ID")⟩] ++ ds] := by
  obtain ⟨d, s, hrun⟩ : ∃ d s,
      buildOperation 20 schemaRoomUnderscore OperationKind.subscription "messageAdded" [] []
        initSynthState = some (d, s) := ⟨_, _, rfl⟩
  obtain ⟨sub, ds, hsel, hvars, _, _⟩ := c10_root_argument_reference_vs_definition.1
    20 schemaRoomUnderscore OperationKind.subscription "messageAdded" [] [] initSynthState
    "Subscription" "Subscription"
    [⟨"messageAdded", [⟨"room_id", TypeRef.nonNull (TypeRef.named "ID")⟩],
      TypeRef.named "Message"⟩]
    ⟨"messageAdded", [⟨"room_id", TypeRef.nonNull (TypeRef.named "ID")⟩],
      TypeRef.named "Message"⟩ d s rfl rfl rfl hrun
  exact ⟨d, s, sub, ds, hrun, hsel, hvars⟩

end Sofa
